import Mathlib

/-!
Shallow embedding of `msgpack-dump.c` (rixed/msgpack-dump): a decoder that
reads a MessagePack byte stream and prints an indented text rendering to
standard output.

The input stream and the produced standard-output text are modelled as lists
of byte values (`Nat` below 256).  The C `struct ctx` becomes the `Ctx`
structure; every function that mutates the context returns the new context
explicitly.  The recursive decoder takes a fuel parameter that strictly
decreases on every call so that the definitions stay structurally recursive
and kernel-computable; running out of fuel yields failure, so any result the
model reports as success corresponds to a real execution of the C code.
-/

namespace MsgpackDump

/-- A byte value (0..255). -/
abbrev Byte := Nat

/-- The decoder context, from `struct ctx` in msgpack-dump.c (fd plus the
bytes it will deliver are modelled as the list of remaining input bytes). -/
structure Ctx where
  input : List Byte
  offset : Nat
  indent : Nat
  eof : Bool
deriving Repr, DecidableEq

/-- `eread` (msgpack-dump.c:65-84): read exactly `sz` bytes.  If `eof` is
already set it fails immediately.  Otherwise it consumes `min sz available`
bytes (the C loop retries partial reads); if fewer than `sz` bytes are
available the read of the remainder returns 0, the `eof` flag is set and the
call fails, with `offset` advanced by the bytes actually consumed.  The
`ret < 0` I/O-error branch has no deterministic trigger from a byte-list
source and is not modelled. -/
def eread (ctx : Ctx) (sz : Nat) : Option (List Byte) × Ctx :=
  if ctx.eof then (none, ctx)
  else if sz ≤ ctx.input.length then
    (some (ctx.input.take sz),
     { ctx with input := ctx.input.drop sz, offset := ctx.offset + sz })
  else
    (none,
     { ctx with
        input := []
        offset := ctx.offset + ctx.input.length
        eof := true })

/-- One iteration step of the loop in `read_varint` (msgpack-dump.c:115-119):
`*n <<= 8; eread(ctx, &byte, 1); *n |= byte;` repeated `cb` times, tracking
the last byte read (the C variable `byte` keeps the value of the final
iteration). -/
def read_varint_loop (ctx : Ctx) (n : Nat) (last : Byte) (cb : Nat) :
    Option (Nat × Byte) × Ctx :=
  match cb with
  | 0 => (some (n, last), ctx)
  | Nat.succ cb =>
    let n' := (n * 256) % 2 ^ 64
    match eread ctx 1 with
    | (none, ctx') => (none, ctx')
    | (some bs, ctx') =>
      let byte := bs.headD 0
      read_varint_loop ctx' (n' ||| byte) byte cb

/-- `read_varint` (msgpack-dump.c:111-125): big-endian accumulation of
`lenlen` bytes into a 64-bit value; when `sign` is set and the LAST byte read
(C variable `byte`, i.e. the lowest-order byte) is ≥ 128, the value
`~0ULL << lenlen` (note: shifted by the byte count `lenlen`, not by
`8*lenlen`) is OR-ed in. -/
def read_varint (ctx : Ctx) (lenlen : Nat) (sign : Bool) : Option Nat × Ctx :=
  match read_varint_loop ctx 0 0 lenlen with
  | (none, ctx') => (none, ctx')
  | (some (n, byte), ctx') =>
    if sign then
      let sign_extend := ((2 ^ 64 - 1) <<< lenlen) % 2 ^ 64
      (some (if byte ≥ 128 then n ||| sign_extend else n), ctx')
    else (some n, ctx')

/-- Fuel-driven digit extraction for `decDigits` (the fuel only serves to
keep the recursion structural; `n + 1` units always suffice). -/
def decDigitsCore (fuel n : Nat) : List Byte :=
  match fuel with
  | 0 => []
  | Nat.succ fuel =>
    if n < 10 then [48 + n]
    else decDigitsCore fuel (n / 10) ++ [48 + n % 10]

/-- Decimal digits (as ASCII bytes) of a natural number, as printed by
`printf` with `%d`/`%u`/`PRIu64`. -/
def decDigits (n : Nat) : List Byte :=
  decDigitsCore (n + 1) n

/-- ASCII bytes printed by `printf("%d", i)` for a (possibly negative)
integer. -/
def printInt (i : Int) : List Byte :=
  if i < 0 then 45 :: decDigits i.natAbs else decDigits i.natAbs

/-- Reinterpretation of an unsigned 64-bit value as the signed `int64_t`
printed by `printf("%"PRId64, (int64_t)n)` (msgpack-dump.c:137). -/
def int64OfUInt64 (n : Nat) : Int :=
  if n < 2 ^ 63 then (n : Int) else (n : Int) - 2 ^ 64

/-- `dump_varint` (msgpack-dump.c:131-142): read a `lenlen`-byte integer and
print it, signed or unsigned. -/
def dump_varint (ctx : Ctx) (lenlen : Nat) (sign : Bool) :
    Bool × Ctx × List Byte :=
  match read_varint ctx lenlen sign with
  | (none, ctx') => (false, ctx', [])
  | (some n, ctx') =>
    (true, ctx', if sign then printInt (int64OfUInt64 n) else decDigits n)

/-- One lowercase hexadecimal digit as an ASCII byte. -/
def hexDigit (n : Nat) : Byte :=
  if n < 10 then 48 + n else 87 + n

/-- Fuel-driven digit extraction for `hexDigits` (the fuel only serves to
keep the recursion structural; `n + 1` units always suffice). -/
def hexDigitsCore (fuel n : Nat) : List Byte :=
  match fuel with
  | 0 => []
  | Nat.succ fuel =>
    if n < 16 then [hexDigit n]
    else hexDigitsCore fuel (n / 16) ++ [hexDigit (n % 16)]

/-- Lowercase hexadecimal digits (as ASCII bytes) of a natural number, no
padding. -/
def hexDigits (n : Nat) : List Byte :=
  hexDigitsCore (n + 1) n

/-- Bytes written by `printf("%02x", data[n])` for one payload byte
(msgpack-dump.c:189), where `data` has type `char *` and `char` is signed on
the target platform (x86-64 Linux): a byte with the high bit set is promoted
to a negative `int` and `%x` renders the corresponding 32-bit unsigned value
(eight hex digits `ffffffxx`); a byte below 128 is zero-padded to two
digits. -/
def hexByte (b : Byte) : List Byte :=
  if b < 128 then
    if b < 16 then 48 :: [hexDigit b] else hexDigits b
  else hexDigits (2 ^ 32 - 256 + b)

/-- The hex rendering of a payload by the loop in `dump_data`
(msgpack-dump.c:188-190): each byte through `hexByte`, separated by single
spaces (the separator is printed before every byte except the first). -/
def hexPairs (data : List Byte) : List Byte :=
  match data with
  | [] => []
  | b :: rest => hexByte b ++ (rest.map (fun c => 32 :: hexByte c)).flatten

/-- Bytes written by `printf("\x22%.*s\x22", (int)len, data)`
(msgpack-dump.c:186) for a buffer holding exactly the payload bytes: `%.*s`
writes at most the precision many bytes and stops early at the first NUL
byte. -/
def printfPrecStr (data : List Byte) : List Byte :=
  data.takeWhile (fun b => b ≠ 0)

/-- `dump_data` (msgpack-dump.c:173-194): allocate, read `len` payload bytes
(failure propagates), then print either the quoted string via `%.*s` or the
space-separated hex pairs.  `malloc` is modelled as always succeeding. -/
def dump_data (ctx : Ctx) (is_str : Bool) (len : Nat) : Bool × Ctx × List Byte :=
  match eread ctx len with
  | (none, ctx') => (false, ctx', [])
  | (some data, ctx') =>
    if is_str then (true, ctx', 34 :: (printfPrecStr data ++ [34]))
    else (true, ctx', hexPairs data)

/-- `dump_data_var` (msgpack-dump.c:196-201): read a `lenlen`-byte unsigned
length, then `dump_data`. -/
def dump_data_var (ctx : Ctx) (is_str : Bool) (lenlen : Nat) :
    Bool × Ctx × List Byte :=
  match read_varint ctx lenlen false with
  | (none, ctx') => (false, ctx', [])
  | (some len, ctx') => dump_data ctx' is_str len

/-- `dump_float32` / `dump_float64` (msgpack-dump.c:155-171): read the fixed
number of bytes straight into the floating variable's memory and print it
with `%g`.  The text `%g` produces is the host reinterpretation of the bytes
and is abstracted here as `float_mem_bytes` of the payload; what matters for
the model is which bytes reach the reinterpretation, in which order, and that
read failures propagate. -/
def float_mem_bytes (payload : List Byte) : List Byte := payload

/-- Modelled from the spec: the byte sequence that a little-endian host must
hold in the floating variable's memory for the IEEE-754 value of the
big-endian wire bytes to be reinterpreted correctly — the wire bytes
byte-swapped (reversed) into little-endian order. -/
def float_mem_bytes_spec_LE (payload : List Byte) : List Byte := payload.reverse

/-- `dump_float32`/`dump_float64` body: read `width` payload bytes into the
variable's memory (wire order, no endianness conversion) and emit the
rendering of that memory. -/
def dump_float (ctx : Ctx) (width : Nat) : Bool × Ctx × List Byte :=
  match eread ctx width with
  | (none, ctx') => (false, ctx', [])
  | (some bytes, ctx') => (true, ctx', float_mem_bytes bytes)

/-- `dump_ext` (msgpack-dump.c:248-255): read the 1-byte type, print
`Type<N>:`, then call `dump_data` for the blob — whose Boolean result the C
code DISCARDS (line 253), so `dump_ext` returns true even when the blob read
or allocation failed (the context mutations of the failed call persist). -/
def dump_ext (ctx : Ctx) (len : Nat) : Bool × Ctx × List Byte :=
  match eread ctx 1 with
  | (none, ctx') => (false, ctx', [])
  | (some t, ctx') =>
    let type := t.headD 0
    let header := [84, 121, 112, 101] ++ decDigits type ++ [58]
    match dump_data ctx' false len with
    | (_ok, ctx'', out) => (true, ctx'', header ++ out)

/-- `dump_ext_var` (msgpack-dump.c:256-261): read a `lenlen`-byte unsigned
length, then `dump_ext`. -/
def dump_ext_var (ctx : Ctx) (lenlen : Nat) : Bool × Ctx × List Byte :=
  match read_varint ctx lenlen false with
  | (none, ctx') => (false, ctx', [])
  | (some len, ctx') => dump_ext ctx' len

/-- Indentation emitted by `dump_indent` (msgpack-dump.c:36-42):
`indent * TAB` spaces with `TAB = 3`. -/
def dump_indent (ctx : Ctx) : List Byte :=
  List.replicate (ctx.indent * 3) 32

/-- `dump_start` (msgpack-dump.c:44-52): indentation unless the role is
ROLE_MAP_VALUE (-3), then the `[N]: ` label when the role is a non-negative
array index. -/
def dump_start (ctx : Ctx) (role : Int) : List Byte :=
  (if role ≠ -3 then dump_indent ctx else []) ++
    (if 0 ≤ role then (91 :: printInt role) ++ [93, 58, 32] else [])

/-- `dump_stop` (msgpack-dump.c:54-62): `: ` after a map key (ROLE_MAP_KEY =
-2), a newline otherwise. -/
def dump_stop (role : Int) : List Byte :=
  if role = -2 then [58, 32] else [10]

/-- The tail of `dump` (msgpack-dump.c:342-343): a successful dispatch is
followed by `dump_stop`, a failed one returns false with the output printed
so far (the `dump_start` prefix and whatever the branch printed). -/
def wrap (startOut : List Byte) (role : Int) (step : Bool × Ctx × List Byte) :
    Bool × Ctx × List Byte :=
  match step with
  | (true, c, o) => (true, c, startOut ++ (o ++ dump_stop role))
  | (false, c, o) => (false, c, startOut ++ o)

/-- The decoders selected by the dispatch chain of `dump`
(msgpack-dump.c:270-340), one constructor per branch, plus `badTag` for the
final `else`. -/
inductive Decoder where
  | nil
  | lfalse
  | ltrue
  | posFixint
  | negFixint
  | uint8
  | uint16
  | uint32
  | uint64
  | int8
  | int16
  | int32
  | int64
  | float32
  | float64
  | fixstr
  | str8
  | str16
  | str32
  | bin8
  | bin16
  | bin32
  | fixarray
  | array16
  | array32
  | fixmap
  | map16
  | map32
  | fixext1
  | fixext2
  | fixext4
  | fixext8
  | fixext16
  | ext8
  | ext16
  | ext32
  | badTag
deriving Repr, DecidableEq

/-- The tag-dispatch chain of `dump` (msgpack-dump.c:270-340), transcribed
branch for branch in the C source's order (first match wins). -/
def dispatch (fst : Byte) : Decoder :=
  if fst = 0xc0 then .nil
  else if fst = 0xc2 then .lfalse
  else if fst = 0xc3 then .ltrue
  else if fst &&& 0x80 = 0 then .posFixint
  else if fst &&& 0xe0 = 0xe0 then .negFixint
  else if fst = 0xcc then .uint8
  else if fst = 0xcd then .uint16
  else if fst = 0xce then .uint32
  else if fst = 0xcf then .uint64
  else if fst = 0xd0 then .int8
  else if fst = 0xd1 then .int16
  else if fst = 0xd2 then .int32
  else if fst = 0xd3 then .int64
  else if fst = 0xca then .float32
  else if fst = 0xcb then .float64
  else if fst &&& 0xe0 = 0xa0 then .fixstr
  else if fst = 0xd9 then .str8
  else if fst = 0xda then .str16
  else if fst = 0xdb then .str32
  else if fst = 0xc4 then .bin8
  else if fst = 0xc5 then .bin16
  else if fst = 0xc6 then .bin32
  else if fst &&& 0xf0 = 0x90 then .fixarray
  else if fst = 0xdc then .array16
  else if fst = 0xdd then .array32
  else if fst &&& 0xf0 = 0x80 then .fixmap
  else if fst = 0xde then .map16
  else if fst = 0xdf then .map32
  else if fst = 0xd4 then .fixext1
  else if fst = 0xd5 then .fixext2
  else if fst = 0xd6 then .fixext4
  else if fst = 0xd7 then .fixext8
  else if fst = 0xd8 then .fixext16
  else if fst = 0xc7 then .ext8
  else if fst = 0xc8 then .ext16
  else if fst = 0xc9 then .ext32
  else .badTag

mutual

/-- `dump` (msgpack-dump.c:263-344): read one tag byte — on failure return
`ctx->eof` (true exactly when the stream ended at the first byte, the clean
top-level termination signal, regardless of the role) — then print the
role-driven prefix, dispatch on the tag, and on success print the role-driven
suffix.  The fuel strictly decreases on every recursive call; running out of
fuel yields failure, so every success of the model is a real execution. -/
def dump (fuel : Nat) (ctx : Ctx) (role : Int) : Bool × Ctx × List Byte :=
  match fuel with
  | 0 => (false, ctx, [])
  | Nat.succ fuel =>
    match eread ctx 1 with
    | (none, ctx') => (ctx'.eof, ctx', [])
    | (some bs, ctx') =>
      let fst := bs.headD 0
      wrap (dump_start ctx' role) role
        (match dispatch fst with
        | .nil => (true, ctx', [40, 41])
        | .lfalse => (true, ctx', [102, 97, 108, 115, 101])
        | .ltrue => (true, ctx', [116, 114, 117, 101])
        | .posFixint => (true, ctx', printInt (fst : Int))
        | .negFixint => (true, ctx', printInt (fst : Int))
        | .uint8 => dump_varint ctx' 1 false
        | .uint16 => dump_varint ctx' 2 false
        | .uint32 => dump_varint ctx' 4 false
        | .uint64 => dump_varint ctx' 8 false
        | .int8 => dump_varint ctx' 1 true
        | .int16 => dump_varint ctx' 2 true
        | .int32 => dump_varint ctx' 4 true
        | .int64 => dump_varint ctx' 8 true
        | .float32 => dump_float ctx' 4
        | .float64 => dump_float ctx' 8
        | .fixstr => dump_data ctx' true (fst &&& 0x1f)
        | .str8 => dump_data_var ctx' true 1
        | .str16 => dump_data_var ctx' true 2
        | .str32 => dump_data_var ctx' true 4
        | .bin8 => dump_data_var ctx' false 1
        | .bin16 => dump_data_var ctx' false 2
        | .bin32 => dump_data_var ctx' false 4
        | .fixarray => dump_array fuel ctx' (fst &&& 0x0f)
        | .array16 => dump_array_var fuel ctx' 2
        | .array32 => dump_array_var fuel ctx' 4
        | .fixmap => dump_map fuel ctx' (fst &&& 0x0f)
        | .map16 => dump_map_var fuel ctx' 2
        | .map32 => dump_map_var fuel ctx' 4
        | .fixext1 => dump_ext ctx' 1
        | .fixext2 => dump_ext ctx' 2
        | .fixext4 => dump_ext ctx' 4
        | .fixext8 => dump_ext ctx' 8
        | .fixext16 => dump_ext ctx' 16
        | .ext8 => dump_ext_var ctx' 1
        | .ext16 => dump_ext_var ctx' 2
        | .ext32 => dump_ext_var ctx' 4
        | .badTag => (false, ctx', []))
termination_by structural fuel

/-- `dump_array` (msgpack-dump.c:203-216): print the opening bracket,
increment the indent, decode `nb_objs` elements (failure propagates with the
indent still raised), then decrement the indent and print the closing
bracket. -/
def dump_array (fuel : Nat) (ctx : Ctx) (nb_objs : Nat) : Bool × Ctx × List Byte :=
  match fuel with
  | 0 => (false, ctx, [])
  | Nat.succ fuel =>
    let ctx1 := { ctx with indent := ctx.indent + 1 }
    match dump_array_loop fuel ctx1 0 nb_objs with
    | (false, ctx', out) => (false, ctx', [91, 10] ++ out)
    | (true, ctx', out) =>
      let ctx2 := { ctx' with indent := ctx'.indent - 1 }
      (true, ctx2, [91, 10] ++ (out ++ (dump_indent ctx2 ++ [93])))
termination_by structural fuel

/-- The element loop of `dump_array` (msgpack-dump.c:208-210): decode each
element with its zero-based index as role, aborting on the first failure. -/
def dump_array_loop (fuel : Nat) (ctx : Ctx) (idx : Nat) (remaining : Nat) :
    Bool × Ctx × List Byte :=
  match fuel with
  | 0 => (false, ctx, [])
  | Nat.succ fuel =>
    match remaining with
    | 0 => (true, ctx, [])
    | Nat.succ rem =>
      match dump fuel ctx (idx : Int) with
      | (false, ctx', out) => (false, ctx', out)
      | (true, ctx', out) =>
        match dump_array_loop fuel ctx' (idx + 1) rem with
        | (ok, ctx'', out') => (ok, ctx'', out ++ out')
termination_by structural fuel

/-- `dump_array_var` (msgpack-dump.c:218-223): read a `lenlen`-byte unsigned
count, then `dump_array`. -/
def dump_array_var (fuel : Nat) (ctx : Ctx) (lenlen : Nat) :
    Bool × Ctx × List Byte :=
  match fuel with
  | 0 => (false, ctx, [])
  | Nat.succ fuel =>
    match read_varint ctx lenlen false with
    | (none, ctx') => (false, ctx', [])
    | (some len, ctx') => dump_array fuel ctx' len
termination_by structural fuel

/-- `dump_map` (msgpack-dump.c:225-239): print the opening brace, increment
the indent, decode `nb_objs` key/value pairs (failure propagates with the
indent still raised), then decrement the indent and print the closing
brace. -/
def dump_map (fuel : Nat) (ctx : Ctx) (nb_objs : Nat) : Bool × Ctx × List Byte :=
  match fuel with
  | 0 => (false, ctx, [])
  | Nat.succ fuel =>
    let ctx1 := { ctx with indent := ctx.indent + 1 }
    match dump_map_loop fuel ctx1 nb_objs with
    | (false, ctx', out) => (false, ctx', [123, 10] ++ out)
    | (true, ctx', out) =>
      let ctx2 := { ctx' with indent := ctx'.indent - 1 }
      (true, ctx2, [123, 10] ++ (out ++ (dump_indent ctx2 ++ [125])))
termination_by structural fuel

/-- The pair loop of `dump_map` (msgpack-dump.c:230-233): decode each key
with role ROLE_MAP_KEY (-2) then each value with role ROLE_MAP_VALUE (-3),
aborting on the first failure. -/
def dump_map_loop (fuel : Nat) (ctx : Ctx) (remaining : Nat) :
    Bool × Ctx × List Byte :=
  match fuel with
  | 0 => (false, ctx, [])
  | Nat.succ fuel =>
    match remaining with
    | 0 => (true, ctx, [])
    | Nat.succ rem =>
      match dump fuel ctx (-2) with
      | (false, ctx', out) => (false, ctx', out)
      | (true, ctx', out) =>
        match dump fuel ctx' (-3) with
        | (false, ctx'', out') => (false, ctx'', out ++ out')
        | (true, ctx'', out') =>
          match dump_map_loop fuel ctx'' rem with
          | (ok, ctx''', out'') => (ok, ctx''', out ++ (out' ++ out''))
termination_by structural fuel

/-- `dump_map_var` (msgpack-dump.c:241-246): read a `lenlen`-byte unsigned
pair count, then `dump_map`. -/
def dump_map_var (fuel : Nat) (ctx : Ctx) (lenlen : Nat) :
    Bool × Ctx × List Byte :=
  match fuel with
  | 0 => (false, ctx, [])
  | Nat.succ fuel =>
    match read_varint ctx lenlen false with
    | (none, ctx') => (false, ctx', [])
    | (some len, ctx') => dump_map fuel ctx' len

termination_by structural fuel
end

/-- The top-level loop of `main` (msgpack-dump.c:367-374) together with the
process exit status: while the eof flag is unset, decode one top-level value
with role ROLE_NONE (-1); a failed decode exits with status 1 (output printed
so far stays on stdout), and falling out of the loop exits with status 0.
Fuel exhaustion is reported as the impossible status 2 so that statuses 0 and
1 are only ever produced by genuine executions. -/
def runLoop (fuel : Nat) (ctx : Ctx) : Nat × List Byte :=
  match fuel with
  | 0 => (2, [])
  | Nat.succ fuel =>
    if ctx.eof then (0, [])
    else
      match dump fuel ctx (-1) with
      | (true, ctx', out) =>
        match runLoop fuel ctx' with
        | (code, out') => (code, out ++ out')
      | (false, _, out) => (1, out)

/-- A whole run of the program on a given input stream: `main` builds the
context with `ctx_ctor` (offset 0, indent 0, eof false) and runs the loop;
the result is the exit status and the bytes written to standard output. -/
def run (fuel : Nat) (input : List Byte) : Nat × List Byte :=
  runLoop fuel { input := input, offset := 0, indent := 0, eof := false }

theorem eread_indent (ctx : Ctx) (sz : Nat) :
    (eread ctx sz).2.indent = ctx.indent := by
  unfold eread
  split
  · rfl
  · split <;> rfl

theorem read_varint_loop_indent (cb : Nat) (ctx : Ctx) (n : Nat) (last : Byte) :
    (read_varint_loop ctx n last cb).2.indent = ctx.indent := by
  induction cb generalizing ctx n last with
  | zero => rfl
  | succ cb ih =>
    simp only [read_varint_loop]
    rcases he : eread ctx 1 with ⟨o, ctx'⟩
    have h1 : ctx'.indent = ctx.indent := by
      have h := eread_indent ctx 1
      rw [he] at h
      exact h
    cases o with
    | none => simpa using h1
    | some bs => simpa [ih] using h1

theorem read_varint_indent (ctx : Ctx) (lenlen : Nat) (sign : Bool) :
    (read_varint ctx lenlen sign).2.indent = ctx.indent := by
  unfold read_varint
  rcases hl : read_varint_loop ctx 0 0 lenlen with ⟨o, ctx'⟩
  have h1 : ctx'.indent = ctx.indent := by
    have h := read_varint_loop_indent lenlen ctx 0 0
    rw [hl] at h
    exact h
  rcases o with _ | ⟨n, byte⟩
  · simpa using h1
  · cases sign <;> simpa using h1

theorem dump_varint_indent (ctx : Ctx) (lenlen : Nat) (sign : Bool) :
    (dump_varint ctx lenlen sign).2.1.indent = ctx.indent := by
  unfold dump_varint
  rcases hr : read_varint ctx lenlen sign with ⟨o, ctx'⟩
  have h1 : ctx'.indent = ctx.indent := by
    have h := read_varint_indent ctx lenlen sign
    rw [hr] at h
    exact h
  cases o <;> simpa using h1

theorem dump_data_indent (ctx : Ctx) (is_str : Bool) (len : Nat) :
    (dump_data ctx is_str len).2.1.indent = ctx.indent := by
  unfold dump_data
  rcases he : eread ctx len with ⟨o, ctx'⟩
  have h1 : ctx'.indent = ctx.indent := by
    have h := eread_indent ctx len
    rw [he] at h
    exact h
  cases o with
  | none => simpa using h1
  | some data => cases is_str <;> simpa using h1

theorem dump_data_var_indent (ctx : Ctx) (is_str : Bool) (lenlen : Nat) :
    (dump_data_var ctx is_str lenlen).2.1.indent = ctx.indent := by
  unfold dump_data_var
  rcases hr : read_varint ctx lenlen false with ⟨o, ctx'⟩
  have h1 : ctx'.indent = ctx.indent := by
    have h := read_varint_indent ctx lenlen false
    rw [hr] at h
    exact h
  cases o with
  | none => simpa using h1
  | some len' => simpa [dump_data_indent] using h1

theorem dump_float_indent (ctx : Ctx) (width : Nat) :
    (dump_float ctx width).2.1.indent = ctx.indent := by
  unfold dump_float
  rcases he : eread ctx width with ⟨o, ctx'⟩
  have h1 : ctx'.indent = ctx.indent := by
    have h := eread_indent ctx width
    rw [he] at h
    exact h
  cases o <;> simpa using h1

theorem dump_ext_indent (ctx : Ctx) (len : Nat) :
    (dump_ext ctx len).2.1.indent = ctx.indent := by
  unfold dump_ext
  rcases he : eread ctx 1 with ⟨o, ctx'⟩
  have h1 : ctx'.indent = ctx.indent := by
    have h := eread_indent ctx 1
    rw [he] at h
    exact h
  cases o with
  | none => simpa using h1
  | some t =>
    rcases hd : dump_data ctx' false len with ⟨ok, ctx'', out⟩
    have h2 : ctx''.indent = ctx'.indent := by
      have h := dump_data_indent ctx' false len
      rw [hd] at h
      exact h
    simp [hd, h2, h1]

theorem dump_ext_var_indent (ctx : Ctx) (lenlen : Nat) :
    (dump_ext_var ctx lenlen).2.1.indent = ctx.indent := by
  unfold dump_ext_var
  rcases hr : read_varint ctx lenlen false with ⟨o, ctx'⟩
  have h1 : ctx'.indent = ctx.indent := by
    have h := read_varint_indent ctx lenlen false
    rw [hr] at h
    exact h
  cases o with
  | none => simpa using h1
  | some len => simpa [dump_ext_indent] using h1

theorem wrap_fst (startOut : List Byte) (role : Int)
    (step : Bool × Ctx × List Byte) : (wrap startOut role step).1 = step.1 := by
  rcases step with ⟨b, c, o⟩
  cases b <;> rfl

theorem wrap_ctx (startOut : List Byte) (role : Int)
    (step : Bool × Ctx × List Byte) : (wrap startOut role step).2.1 = step.2.1 := by
  rcases step with ⟨b, c, o⟩
  cases b <;> rfl

/-- Indentation balance for the whole mutual recursion: every successful call
leaves `indent` where it found it (the array/map decoders raise it entering
the body and lower it on their success path). -/
theorem indent_preserved (fuel : Nat) :
    (∀ ctx role, (dump fuel ctx role).1 = true →
        (dump fuel ctx role).2.1.indent = ctx.indent) ∧
    (∀ ctx nb, (dump_array fuel ctx nb).1 = true →
        (dump_array fuel ctx nb).2.1.indent = ctx.indent) ∧
    (∀ ctx idx rem, (dump_array_loop fuel ctx idx rem).1 = true →
        (dump_array_loop fuel ctx idx rem).2.1.indent = ctx.indent) ∧
    (∀ ctx lenlen, (dump_array_var fuel ctx lenlen).1 = true →
        (dump_array_var fuel ctx lenlen).2.1.indent = ctx.indent) ∧
    (∀ ctx nb, (dump_map fuel ctx nb).1 = true →
        (dump_map fuel ctx nb).2.1.indent = ctx.indent) ∧
    (∀ ctx rem, (dump_map_loop fuel ctx rem).1 = true →
        (dump_map_loop fuel ctx rem).2.1.indent = ctx.indent) ∧
    (∀ ctx lenlen, (dump_map_var fuel ctx lenlen).1 = true →
        (dump_map_var fuel ctx lenlen).2.1.indent = ctx.indent) := by
  induction fuel with
  | zero =>
    refine ⟨?_, ?_, ?_, ?_, ?_, ?_, ?_⟩
    · intro ctx role h
      simp [dump] at h
    · intro ctx nb h
      simp [dump_array] at h
    · intro ctx idx rem h
      simp [dump_array_loop] at h
    · intro ctx lenlen h
      simp [dump_array_var] at h
    · intro ctx nb h
      simp [dump_map] at h
    · intro ctx rem h
      simp [dump_map_loop] at h
    · intro ctx lenlen h
      simp [dump_map_var] at h
  | succ fuel ih =>
    obtain ⟨ihd, iha, ihal, ihav, ihm, ihml, ihmv⟩ := ih
    refine ⟨?_, ?_, ?_, ?_, ?_, ?_, ?_⟩
    · -- dump
      intro ctx role
      simp only [dump]
      rcases he : eread ctx 1 with ⟨o, ctx'⟩
      have h1 : ctx'.indent = ctx.indent := by
        have h := eread_indent ctx 1
        rw [he] at h
        exact h
      cases o with
      | none =>
        intro h
        simpa using h1
      | some bs =>
        rw [wrap_fst, wrap_ctx]
        cases hd : dispatch (bs.headD 0) <;>
          first
          | (intro h
             simp only [dump_varint_indent, dump_data_indent,
               dump_data_var_indent, dump_float_indent, dump_ext_indent,
               dump_ext_var_indent]
             exact h1)
          | (intro h
             rw [iha _ _ h]
             exact h1)
          | (intro h
             rw [ihav _ _ h]
             exact h1)
          | (intro h
             rw [ihm _ _ h]
             exact h1)
          | (intro h
             rw [ihmv _ _ h]
             exact h1)
    · -- dump_array
      intro ctx nb
      simp only [dump_array]
      rcases hl : dump_array_loop fuel { ctx with indent := ctx.indent + 1 } 0 nb
        with ⟨ok, c, o⟩
      cases ok with
      | false =>
        intro h
        simp at h
      | true =>
        intro _
        have h3 : c.indent = ctx.indent + 1 := by
          have h := ihal { ctx with indent := ctx.indent + 1 } 0 nb
          rw [hl] at h
          simpa using h rfl
        simp [h3]
    · -- dump_array_loop
      intro ctx idx rem
      cases rem with
      | zero =>
        intro _
        rfl
      | succ rem =>
        simp only [dump_array_loop]
        rcases hd : dump fuel ctx (idx : Int) with ⟨ok, c, o⟩
        cases ok with
        | false =>
          intro h
          simp at h
        | true =>
          have hc : c.indent = ctx.indent := by
            have h := ihd ctx (idx : Int)
            rw [hd] at h
            simpa using h rfl
          dsimp only
          rcases hl : dump_array_loop fuel c (idx + 1) rem with ⟨ok2, c2, o2⟩
          intro h
          have hok2 : ok2 = true := by simpa using h
          have hc2 : c2.indent = c.indent := by
            have h' := ihal c (idx + 1) rem
            rw [hl] at h'
            simpa using h' hok2
          simpa using hc2.trans hc
    · -- dump_array_var
      intro ctx lenlen
      simp only [dump_array_var]
      rcases hr : read_varint ctx lenlen false with ⟨o, ctx'⟩
      have h1 : ctx'.indent = ctx.indent := by
        have h := read_varint_indent ctx lenlen false
        rw [hr] at h
        exact h
      cases o with
      | none =>
        intro h
        simp at h
      | some len =>
        intro h
        have := iha ctx' len (by simpa using h)
        simpa using this.trans h1
    · -- dump_map
      intro ctx nb
      simp only [dump_map]
      rcases hl : dump_map_loop fuel { ctx with indent := ctx.indent + 1 } nb
        with ⟨ok, c, o⟩
      cases ok with
      | false =>
        intro h
        simp at h
      | true =>
        intro _
        have h3 : c.indent = ctx.indent + 1 := by
          have h := ihml { ctx with indent := ctx.indent + 1 } nb
          rw [hl] at h
          simpa using h rfl
        simp [h3]
    · -- dump_map_loop
      intro ctx rem
      cases rem with
      | zero =>
        intro _
        rfl
      | succ rem =>
        simp only [dump_map_loop]
        rcases hk : dump fuel ctx (-2) with ⟨ok, c, o⟩
        cases ok with
        | false =>
          intro h
          simp at h
        | true =>
          have hc : c.indent = ctx.indent := by
            have h := ihd ctx (-2)
            rw [hk] at h
            simpa using h rfl
          dsimp only
          rcases hv : dump fuel c (-3) with ⟨ok2, c2, o2⟩
          cases ok2 with
          | false =>
            intro h
            simp at h
          | true =>
            have hc2 : c2.indent = c.indent := by
              have h := ihd c (-3)
              rw [hv] at h
              simpa using h rfl
            dsimp only
            rcases hl : dump_map_loop fuel c2 rem with ⟨ok3, c3, o3⟩
            intro h
            have hok3 : ok3 = true := by simpa using h
            have hc3 : c3.indent = c2.indent := by
              have h' := ihml c2 rem
              rw [hl] at h'
              simpa using h' hok3
            simpa using (hc3.trans hc2).trans hc
    · -- dump_map_var
      intro ctx lenlen
      simp only [dump_map_var]
      rcases hr : read_varint ctx lenlen false with ⟨o, ctx'⟩
      have h1 : ctx'.indent = ctx.indent := by
        have h := read_varint_indent ctx lenlen false
        rw [hr] at h
        exact h
      cases o with
      | none =>
        intro h
        simp at h
      | some len =>
        intro h
        have := ihm ctx' len (by simpa using h)
        simpa using this.trans h1

/-- C1: the claim says the decoder sign-extends fixed-width signed integers
from the most significant bit of the highest-order (first) payload byte, so
that int8 `ff` prints `-1` and int16 `80 00` prints `-32768`.  The code's
`read_varint` instead tests the LAST byte read and ORs in `~0ULL << lenlen`
(shifting by the byte count, not the bit count), so while int8 `ff` does
print `-1` (low bits already set), the int16 stream `d1 80 00` prints
`32768` — not `-32768` — and exits 0: the sign-extension of the claim is not
what the code computes. -/
theorem int16_sign_extension_bug :
    run 10 [0xd0, 0xff] = (0, printInt (-1) ++ [10]) ∧
    run 10 [0xd1, 0x80, 0x00] = (0, [51, 50, 55, 54, 56, 10]) ∧
    run 10 [0xd1, 0x80, 0x00] ≠ (0, printInt (-32768) ++ [10]) := by
  decide

/-- C2: the claim says end-of-stream at the first byte of a nested value
(here: the single element of a fixarray of declared size 1) makes the decode
fail and the process exit with status 1.  In the code, `dump` returns
`ctx->eof` when the tag-byte read fails, for every role: on input `91` the
element decode "succeeds" silently, the array closes, and the run exits 0
after printing an open-and-close bracket pair. -/
theorem nested_eof_exits_zero :
    run 10 [0x91] = (0, [91, 10, 93, 10]) := by
  decide

/-- C3: the claim says a read failure while decoding an extension payload
blob makes the whole run fail with status 1.  In the code, `dump_ext`
discards the Boolean result of its `dump_data` call (msgpack-dump.c:253), so
on input `d4 05` (fixext1, type 5, stream ending before the 1 payload byte)
the failed blob read is swallowed, `Type5:` is printed, and the run exits
0. -/
theorem ext_payload_failure_swallowed :
    run 10 [0xd4, 0x05] = (0, [84, 121, 112, 101, 53, 58, 10]) := by
  decide

/-- C4: the claim says a negative-fixint tag byte (0xe0..0xff) prints its
two's-complement value (-32..-1).  The code passes the `unsigned char` tag
straight to `dump_int`, whose `%d` prints the unsigned value: tag `e0`
prints `224` (not `-32`) and tag `ff` prints `255` (not `-1`). -/
theorem negative_fixint_prints_unsigned :
    run 10 [0xe0] = (0, [50, 50, 52, 10]) ∧
    run 10 [0xff] = (0, [50, 53, 53, 10]) ∧
    run 10 [0xff] ≠ (0, printInt (-1) ++ [10]) := by
  decide

/-- C5: the claim says the float payload bytes are byte-swapped from
big-endian wire order into host order before reinterpretation on a
little-endian platform.  The code reads them straight into the variable's
memory with no conversion: for the float32 value `ca 3f 80 00 00`
(IEEE-754 1.0) the bytes reaching the reinterpretation are the wire bytes in
wire order, which differ from the byte-swapped sequence a little-endian host
would need. -/
theorem float_bytes_not_swapped :
    dump 5 { input := [0xca, 0x3f, 0x80, 0x00, 0x00], offset := 0,
             indent := 0, eof := false } (-1)
      = (true, { input := [], offset := 5, indent := 0, eof := false },
         float_mem_bytes [0x3f, 0x80, 0x00, 0x00] ++ [10]) ∧
    float_mem_bytes [0x3f, 0x80, 0x00, 0x00]
      ≠ float_mem_bytes_spec_LE [0x3f, 0x80, 0x00, 0x00] := by
  decide

/-- C6: the claim says every payload byte of a binary blob prints as exactly
one two-character lowercase hex pair, including bytes 0x80..0xff.  The code
prints `data[n]` through `%02x` with `data` a (signed) `char *`: bytes below
0x80 do print as two characters (`c4 02 01 ab` renders `01` for the first
byte), but a byte ≥ 0x80 is sign-extended and prints as eight characters —
`c4 01 ff` renders `ffffffff`, and the second byte of `c4 02 01 ab` renders
`ffffffab`. -/
theorem hex_pair_sign_extension :
    run 10 [0xc4, 0x01, 0xff]
      = (0, [102, 102, 102, 102, 102, 102, 102, 102, 10]) ∧
    run 10 [0xc4, 0x02, 0x01, 0xab]
      = (0, [48, 49, 32, 102, 102, 102, 102, 102, 102, 97, 98, 10]) := by
  decide

/-- C7: the claim says the L payload bytes of a string print verbatim between
the quotes, even when they contain a zero byte.  The code prints the payload
with `%.*s`, which stops at the first NUL: the fixstr `a2 00 41` (length 2,
payload NUL then `A`) prints an empty pair of quotes, dropping both payload
bytes. -/
theorem string_payload_truncated_at_nul :
    run 10 [0xa2, 0x00, 0x41] = (0, [34, 34, 10]) ∧
    run 10 [0xa2, 0x00, 0x41] ≠ (0, [34, 0, 65, 34, 10]) := by
  decide

set_option maxRecDepth 8000 in
/-- C9: of the 256 possible tag bytes, `dispatch` sends exactly one — 0xc1 —
to the fatal `Bad tag` branch; the other 255 each select a decoder (the
first matching rule of the chain, `dispatch` being a function, selects it
uniquely). -/
theorem dispatch_covers_all_but_c1 :
    (∀ b : Fin 256, dispatch b.val = Decoder.badTag ↔ b.val = 0xc1) ∧
    ((List.range 256).filter
        (fun b => decide (dispatch b ≠ Decoder.badTag))).length = 255 := by
  decide

/-- C8: for every stream consisting of a str8 tag (`d9`), a declared payload
length `L`, and fewer than `L` remaining bytes, the run fails: the short read
is detected, nothing is printed for the value, and the process exits with
status 1 (in particular no silently truncated string is printed). -/
theorem truncated_string_fails (L : Nat) (payload : List Byte) (fuel : Nat)
    (hL : L < 256) (hshort : payload.length < L) :
    run (fuel + 2) (0xd9 :: L :: payload) = (1, []) := by
  have hnle : ¬ (L ≤ payload.length) := by omega
  have hd : dispatch 0xd9 = Decoder.str8 := by decide
  simp [run, runLoop, dump, eread, hd, dump_data_var, read_varint,
        read_varint_loop, dump_data, dump_start, dump_indent, dump_stop, wrap,
        hnle]

/-- Witness for C8: the stream `d9 04 41 42` declares a 4-byte string but
only 2 payload bytes follow; the run exits 1 with empty output. -/
theorem truncated_string_fails_witness :
    (4 : Nat) < 256 ∧ ([0x41, 0x42] : List Byte).length < 4 ∧
    run 2 (0xd9 :: 4 :: [0x41, 0x42]) = (1, []) :=
  ⟨by decide, by decide,
   truncated_string_fails 4 [0x41, 0x42] 0 (by decide) (by decide)⟩

/-- C10: every call to the recursive decode function `dump` that returns
success leaves the context's indent level equal to its value before the call
— the array and map decoders raise the indent entering the container body and
lower it again on their success path, so indentation is balanced across every
fully decoded value. -/
theorem dump_success_preserves_indent (fuel : Nat) (ctx : Ctx) (role : Int)
    (h : (dump fuel ctx role).1 = true) :
    (dump fuel ctx role).2.1.indent = ctx.indent :=
  (indent_preserved fuel).1 ctx role h

/-- Witness for C10: decoding the one-element array `91 01` succeeds and
leaves the indent at its initial value 0. -/
theorem dump_success_preserves_indent_witness :
    (dump 10 { input := [0x91, 0x01], offset := 0, indent := 0,
               eof := false } (-1)).1 = true ∧
    (dump 10 { input := [0x91, 0x01], offset := 0, indent := 0,
               eof := false } (-1)).2.1.indent = 0 :=
  ⟨by decide,
   dump_success_preserves_indent 10
     { input := [0x91, 0x01], offset := 0, indent := 0, eof := false } (-1)
     (by decide)⟩

end MsgpackDump


